import Mathlib

set_option maxRecDepth 100000

/-!
Shallow embedding of `src/sdk/src/tx/baseTxSender.ts` (class `BaseTxSender`)
and verification of the specified properties of its operations.

Modelling conventions:

* Machine integers of the source are `Nat` (none of the verified paths can
  overflow a JS number).
* Fallible TypeScript code (functions that may `throw` / promises that may
  reject) is embedded with `Except`.
* The external collaborators (the `Connection` endpoints, the wallet, the
  serializer) are parameters of the embedded operations: each call receives
  the outcome every external primitive would produce (registration results,
  blockhash fetch result, the temporal order of signature callbacks), and the
  embedding computes what the method's JavaScript does with those outcomes
  under the single-threaded event-loop semantics:
  - all `connection.onSignature` registrations run synchronously inside
    `connections.map`, so a registration that throws rejects its promise
    before any callback (which needs a later websocket macrotask) can fire;
  - `Promise.race` therefore settles with the lowest-index rejected
    registration promise if one exists, else with the first callback to fire
    before the deadline, else with the timeout;
  - the `await` continuation (teardown in `finally`, then return/throw) runs
    in the microtask drain right after the settling event, before any further
    callback macrotask can run; a late callback finds its listener removed.
* `commitment` flows into `connection.onSignature` unchanged and influences
  nothing modelled here, so it is elided.
-/

/-- Outcome payload delivered by an endpoint's signature callback: the
`SignatureResult` value (`err` field) of `@solana/web3.js`. -/
inductive SigOutcome
  | success
  | onChainError (details : String)
deriving DecidableEq, Repr

/-- The `RpcResponseAndContext<SignatureResult>` payload built in the
callback at lines 186-189 of the source: context slot plus outcome. -/
structure ConfResult where
  slot : Nat
  value : SigOutcome
deriving DecidableEq, Repr

/-- Errors thrown by `confirmTransaction`: the base58 decode failure
(line 167), the length assertion (line 170), a propagated registration
rejection (line 195 rejecting, surfaced through `promiseTimeout`), and the
timeout error (lines 215-219) carrying the elapsed time and the signature. -/
inductive TxError
  | invalidBase58 (sig : String)
  | invalidLength
  | subscriptionError (msg : String)
  | timeout (elapsedMs : Nat) (sig : String)
deriving DecidableEq, Repr

/-- The spec's `InvalidSignature` condition covers both rejection branches
that run before any subscription is opened. -/
def TxError.isInvalidSignature : TxError → Bool
  | .invalidBase58 _ => true
  | .invalidLength => true
  | _ => false

/-- Decidable equality for `Except`, so concrete runs can be checked by
evaluation. -/
instance exceptDecEq {ε α : Type} [DecidableEq ε] [DecidableEq α] :
    DecidableEq (Except ε α) := fun x y =>
  match x, y with
  | .ok a, .ok b =>
    if h : a = b then .isTrue (by rw [h]) else .isFalse (fun hc => by cases hc; exact h rfl)
  | .ok _, .error _ => .isFalse (fun hc => by cases hc)
  | .error _, .ok _ => .isFalse (fun hc => by cases hc)
  | .error a, .error b =>
    if h : a = b then .isTrue (by rw [h]) else .isFalse (fun hc => by cases hc; exact h rfl)

/-! ### base58 decoding (the `bs58` dependency, `base-x` algorithm) -/

/-- Alphabet of the `bs58` package. -/
def base58Alphabet : List Char :=
  "123456789ABCDEFGHJKLMNPQRSTUVWXYZabcdefghijkmnopqrstuvwxyz".toList

/-- Value of one base58 digit; `none` for a character outside the alphabet
(`bs58.decode` throws on it). -/
def base58CharVal (c : Char) : Option Nat :=
  base58Alphabet.indexOf? c

/-- Horner evaluation of a base58 digit string; `none` on the first invalid
character. -/
def base58Val : List Char → Nat → Option Nat
  | [], acc => some acc
  | c :: cs, acc =>
    match base58CharVal c with
    | none => none
    | some v => base58Val cs (acc * 58 + v)

/-- Big-endian byte expansion with explicit fuel: each step divides by 256,
so `fuel = n` always suffices (the value strictly decreases per step). -/
def natToBytesBEAux : Nat → Nat → List Nat
  | 0, _ => []
  | fuel + 1, n => if n = 0 then [] else natToBytesBEAux fuel (n / 256) ++ [n % 256]

/-- Big-endian minimal byte representation of a natural number (empty for 0),
as `base-x` produces after skipping leading zero bytes. -/
def natToBytesBE (n : Nat) : List Nat :=
  natToBytesBEAux n n

/-- Number of leading `'1'` characters; each stands for one leading zero
byte in the `base-x` decode. -/
def leadingOnes : List Char → Nat
  | [] => 0
  | c :: cs => if c = '1' then leadingOnes cs + 1 else 0

/-- Embedded `bs58.decode`: `none` when the TypeScript call throws, otherwise
the decoded byte list (leading `'1'`s become zero bytes, the remaining digits
a minimal big-endian number). -/
def bs58Decode (s : String) : Option (List Nat) :=
  let cs := s.toList
  match base58Val cs 0 with
  | none => none
  | some v => some (List.replicate (leadingOnes cs) 0 ++ natToBytesBE v)

/-! ### Confirmation race engine -/

/-- Per-call environment of one `confirmTransaction` run: the outcome each
`connection.onSignature` registration would produce (`conns`, primary
connection first, `Except.error` when the registration throws), the temporal
order of the signature callbacks that would fire before the deadline
(`events`, endpoint index paired with payload), and the wall-clock time the
call observes as elapsed at the deadline. -/
structure ConfirmEnv where
  conns : List (Except String Nat)
  events : List (Nat × ConfResult)
  elapsedMs : Nat
deriving Repr

/-- Mutable sender state touched by the embedded operations: the timeout
counter and the additional-connection list (here only its length matters to
`confirmTransaction`; the full list is carried for the other operations). -/
structure ConnectionRef where
  rpcEndpoint : String
deriving DecidableEq, Repr

/-- State of one `BaseTxSender` instance: `timeoutCount` (line 30) and
`additionalConnections` (line 29). -/
structure SenderState where
  timeoutCount : Nat
  additionalConnections : List ConnectionRef
deriving DecidableEq, Repr

/-- Observable effects of one `confirmTransaction` call: the
`subscriptionIds` array as filled during registration (line 198; `none`
where the registration threw and the slot stayed `undefined`), and the
`removeSignatureListener` calls issued by the `finally` block, as
(connection index, subscription id) pairs in issue order. -/
structure ConfirmTrace where
  registered : List (Option Nat)
  teardowns : List (Nat × Nat)
deriving DecidableEq, Repr

/-- Teardown loop of lines 205-209: walk `subscriptionIds` with its index
and call `removeSignatureListener` exactly on the truthy entries — a slot
that is `undefined` (registration threw, or the winning callback cleared it
at line 185) or holds the number `0` fails the `if (subscriptionId)` test
and is skipped. -/
def teardownCalls : Nat → List (Option Nat) → List (Nat × Nat)
  | _, [] => []
  | i, h :: hs =>
    match h with
    | some n => if n ≠ 0 then (i, n) :: teardownCalls (i + 1) hs else teardownCalls (i + 1) hs
    | none => teardownCalls (i + 1) hs

/-- First registration that threw, in connection order: `Promise.race`
settles with the lowest-index already-rejected promise. -/
def firstThrow : List (Except String Nat) → Option String
  | [] => none
  | .error e :: _ => some e
  | .ok _ :: rs => firstThrow rs

/-- First callback to fire for this call: the first event whose endpoint
index addresses one of the `n` registered connections. -/
def firstEvent (n : Nat) : List (Nat × ConfResult) → Option (Nat × ConfResult)
  | [] => none
  | e :: es => if e.1 < n then some e else firstEvent n es

/-- Number of connections whose registration succeeded (the reachable
endpoints). -/
def successCount (rs : List (Except String Nat)) : Nat :=
  rs.countP fun r => match r with | .ok _ => true | .error _ => false

/-- Contents of the `subscriptionIds` array right after the registration
loop: `some id` where `connection.onSignature` returned `id`, `none` where
it threw and the pushed local variable was still `undefined`. -/
def registeredHandles (conns : List (Except String Nat)) : List (Option Nat) :=
  conns.map fun r => match r with | .ok id => some id | .error _ => none

/-- Embedded `confirmTransaction` (lines 159-223). Returns the call's
result, its observable trace, and the sender state after the call.

Branches, in the order the source takes them:
1. `bs58.decode` throws → `invalidBase58`, nothing registered (lines 163-168);
2. decoded length ≠ 64 → the assertion throws, nothing registered (line 170);
3. some registration threw → its promise is already rejected when
   `Promise.race` runs, so `await this.promiseTimeout` throws the first such
   error after the `finally` teardown; lines 212-220 never run;
4. some callback fires before the deadline → it clears its own
   `subscriptionIds` slot (line 185), stores the response and resolves; the
   teardown then removes the remaining truthy handles and the response is
   returned;
5. nothing fired → the timeout promise resolves `null`, the teardown removes
   every truthy handle, `timeoutCount` is incremented and the timeout error
   is thrown (lines 212-220). -/
def confirmTransaction (sig : String) (env : ConfirmEnv) (st : SenderState) :
    Except TxError ConfResult × ConfirmTrace × SenderState :=
  match bs58Decode sig with
  | none => (.error (.invalidBase58 sig), ⟨[], []⟩, st)
  | some bytes =>
    if bytes.length ≠ 64 then
      (.error .invalidLength, ⟨[], []⟩, st)
    else
      let registered := registeredHandles env.conns
      match firstThrow env.conns with
      | some e =>
        (.error (.subscriptionError e), ⟨registered, teardownCalls 0 registered⟩, st)
      | none =>
        match firstEvent env.conns.length env.events with
        | some (i, payload) =>
          let handles := registered.set i none
          (.ok payload, ⟨registered, teardownCalls 0 handles⟩, st)
        | none =>
          (.error (.timeout env.elapsedMs sig), ⟨registered, teardownCalls 0 registered⟩,
            ⟨st.timeoutCount + 1, st.additionalConnections⟩)

/-- Result component of a `confirmTransaction` call. -/
def confirmResult (sig : String) (env : ConfirmEnv) (st : SenderState) :
    Except TxError ConfResult :=
  (confirmTransaction sig env st).1

/-- Trace component of a `confirmTransaction` call. -/
def confirmTrace (sig : String) (env : ConfirmEnv) (st : SenderState) : ConfirmTrace :=
  (confirmTransaction sig env st).2.1

/-- Sender state after a `confirmTransaction` call. -/
def confirmState (sig : String) (env : ConfirmEnv) (st : SenderState) : SenderState :=
  (confirmTransaction sig env st).2.2

/-- A 64-byte signature in base58 text form: sixty-four `'1'` characters,
decoding to sixty-four zero bytes. -/
def sig64 : String := "1111111111111111111111111111111111111111111111111111111111111111"

example : (bs58Decode sig64).map List.length = some 64 := by decide
example : bs58Decode "0" = none := by decide
example : (bs58Decode "").map List.length = some 0 := by decide

/-! ### Preparer (`prepareTx`, lines 72-91) -/

/-- Legacy `Transaction` object, reduced to the fields `prepareTx` touches:
fee payer, recent blockhash, and the list of partial signatures applied. -/
structure Tx where
  feePayer : Option String
  recentBlockhash : Option String
  partialSignatures : List String
deriving DecidableEq, Repr

/-- Effect of `tx.partialSign(kp)`: records the signer's signature on the
transaction. -/
def Tx.partialSign (tx : Tx) (kp : String) : Tx :=
  { tx with partialSignatures := tx.partialSignatures ++ [kp] }

/-- External collaborators of one `prepareTx` call: the wallet's public key,
the outcome of `connection.getLatestBlockhash` (`Except.error` when the
fetch rejects), and the wallet's `signTransaction` behaviour. -/
structure PrepareEnv where
  walletPublicKey : String
  blockhashResult : Except String String
  walletSign : Tx → Tx

/-- Observable effects of one `prepareTx` call: how often the blockhash was
fetched, which signers' `partialSign` ran (in order), and whether
`wallet.signTransaction` was invoked. -/
structure PrepareTrace where
  blockhashFetches : Nat
  partialSignCalls : List String
  walletSignInvoked : Bool
deriving DecidableEq, Repr

/-- Embedded `prepareTx` (lines 72-91): stamp the fee payer, fetch the
blockhash (a rejection propagates and aborts the call right there), apply
`partialSign` for every non-undefined additional signer in order, then
delegate to `wallet.signTransaction`. -/
def prepareTx (env : PrepareEnv) (tx : Tx) (additionalSigners : List (Option String)) :
    Except String Tx × PrepareTrace :=
  let tx1 := { tx with feePayer := some env.walletPublicKey }
  match env.blockhashResult with
  | .error e => (.error e, ⟨1, [], false⟩)
  | .ok bh =>
    let tx2 := { tx1 with recentBlockhash := some bh }
    let signers := additionalSigners.filterMap id
    let tx3 := signers.foldl Tx.partialSign tx2
    (.ok (env.walletSign tx3), ⟨1, signers, true⟩)

/-! ### Broadcaster (`send`, `sendVersionedTransaction`,
`sendToAdditionalConnections`, `addAdditionalConnection`) -/

/-- Observable effects of one `send` call: the preparation effects and the
raw bytes handed to `sendRawTransaction` (`none` when the call aborted
before sending). -/
structure SendTrace where
  prep : PrepareTrace
  rawSent : Option (List Nat)
deriving DecidableEq, Repr

/-- Embedded `send` (lines 52-70): with `preSigned` the transaction is
serialized exactly as given; otherwise it goes through `prepareTx` first.
`serialize` and `sendRaw` stand for the external `Transaction.serialize`
and the subclass's `sendRawTransaction`. -/
def send (env : PrepareEnv) (serialize : Tx → List Nat)
    (sendRaw : List Nat → Except String (String × Nat))
    (tx : Tx) (additionalSigners : List (Option String)) (preSigned : Bool) :
    Except String (String × Nat) × SendTrace :=
  if preSigned then
    let raw := serialize tx
    (sendRaw raw, ⟨⟨0, [], false⟩, some raw⟩)
  else
    match prepareTx env tx additionalSigners with
    | (.error e, ptr) => (.error e, ⟨ptr, none⟩)
    | (.ok signedTx, ptr) =>
      let raw := serialize signedTx
      (sendRaw raw, ⟨ptr, some raw⟩)

/-- Versioned transaction, reduced to the signature list the `sign` calls
touch. -/
structure VersionedTx where
  messageBytes : List Nat
  signatures : List String
deriving DecidableEq, Repr

/-- Effect of `tx.sign(keypairs)` on a versioned transaction. -/
def VersionedTx.sign (tx : VersionedTx) (kps : List String) : VersionedTx :=
  { tx with signatures := tx.signatures ++ kps }

/-- External collaborators of `sendVersionedTransaction`: the optional
embedded payer key of the wallet and the wallet's `signTransaction`
behaviour for versioned transactions. -/
structure VersionedEnv where
  walletPayer : Option String
  walletSign : VersionedTx → VersionedTx

/-- Observable effects of one `sendVersionedTransaction` call: every key
passed to a `tx.sign` call (in order), whether `wallet.signTransaction`
was invoked, and the raw bytes handed to `sendRawTransaction`. -/
structure VersionedSendTrace where
  signCalls : List String
  walletSignInvoked : Bool
  rawSent : List Nat
deriving DecidableEq, Repr

/-- Embedded `sendVersionedTransaction` (lines 119-148): with `preSigned`
the transaction is serialized as given; otherwise, if the wallet exposes a
payer key, the transaction is signed locally with the additional signers
plus that key; otherwise each additional signer signs and the wallet's
`signTransaction` finishes. -/
def sendVersionedTransaction (env : VersionedEnv) (serialize : VersionedTx → List Nat)
    (sendRaw : List Nat → Except String (String × Nat))
    (tx : VersionedTx) (additionalSigners : List (Option String)) (preSigned : Bool) :
    Except String (String × Nat) × VersionedSendTrace :=
  if preSigned then
    let raw := serialize tx
    (sendRaw raw, ⟨[], false, raw⟩)
  else
    match env.walletPayer with
    | some payer =>
      let keys := additionalSigners.filterMap id ++ [payer]
      let signedTx := tx.sign keys
      let raw := serialize signedTx
      (sendRaw raw, ⟨keys, false, raw⟩)
    | none =>
      let keys := additionalSigners.filterMap id
      let signedTx := env.walletSign (keys.foldl (fun t kp => t.sign [kp]) tx)
      let raw := serialize signedTx
      (sendRaw raw, ⟨keys, true, raw⟩)

/-- Embedded `sendToAdditionalConnections` (lines 246-259): each additional
connection's `sendRawTransaction` promise gets a `.catch` that only logs, so
a per-connection rejection is absorbed. The argument is the outcome each
dispatch would produce; the result is the list of logged errors, wrapped in
`Except` to show the method itself never throws. -/
def sendToAdditionalConnections (dispatchResults : List (Except String String)) :
    Except String (List String) :=
  .ok (dispatchResults.foldr
    (fun r logs =>
      match r with
      | .ok _ => logs
      | .error e => e :: logs)
    [])

/-- Embedded `addAdditionalConnection` (lines 261-271): the new connection is
appended only when no registered additional connection already has its
rpc endpoint address. -/
def addAdditionalConnection (conns : List ConnectionRef) (newConnection : ConnectionRef) :
    List ConnectionRef :=
  let alreadyUsingConnection :=
    (conns.filter fun c => c.rpcEndpoint == newConnection.rpcEndpoint).length > 0
  if alreadyUsingConnection then conns else conns ++ [newConnection]

/-- Embedded `getTimeoutCount` (lines 273-275). -/
def getTimeoutCount (st : SenderState) : Nat :=
  st.timeoutCount

/-! ### Operation sequences over one sender instance -/

/-- One public operation on a `BaseTxSender` instance, with the per-call
environment it runs against. `send` and `sendToAdditionalConnections` do
not touch the sender state fields modelled here; they are included so the
temporal claims range over every operation of the class. -/
inductive SenderOp
  | confirmOp (sig : String) (env : ConfirmEnv)
  | addConnOp (c : ConnectionRef)
  | sendOp
  | sendToAdditionalOp
  | getTimeoutCountOp

/-- State transition of one operation. -/
def stepOp (st : SenderState) : SenderOp → SenderState
  | .confirmOp sig env => confirmState sig env st
  | .addConnOp c => ⟨st.timeoutCount, addAdditionalConnection st.additionalConnections c⟩
  | .sendOp => st
  | .sendToAdditionalOp => st
  | .getTimeoutCountOp => st

/-- State after a sequence of operations. -/
def runOps (st : SenderState) : List SenderOp → SenderState
  | [] => st
  | op :: ops => runOps (stepOp st op) ops

/-- N repeated `confirmTransaction` calls against the same per-call
environment. -/
def repeatConfirm (sig : String) (env : ConfirmEnv) : Nat → SenderState → SenderState
  | 0, st => st
  | n + 1, st => repeatConfirm sig env n (confirmState sig env st)

/-- Whether a `confirmTransaction` call returned a confirmation result (as
opposed to throwing). -/
def isOkResult : Except TxError ConfResult → Bool
  | .ok _ => true
  | .error _ => false

/-! ### Helper lemmas -/

/-- Every truthy slot is removed exactly once: when no slot holds the number
`0`, the teardown loop issues one `removeSignatureListener` per `some` slot. -/
theorem teardownCalls_length (hs : List (Option Nat)) (i : Nat)
    (hnz : ∀ h ∈ hs, ∀ n, h = some n → n ≠ 0) :
    (teardownCalls i hs).length = hs.countP Option.isSome := by
  induction hs generalizing i with
  | nil => rfl
  | cons h t ih =>
    have ht : ∀ x ∈ t, ∀ n, x = some n → n ≠ 0 :=
      fun x hx => hnz x (List.mem_cons_of_mem _ hx)
    cases h with
    | none =>
      simp only [teardownCalls, List.countP_cons, Option.isSome]
      simpa using ih (i + 1) ht
    | some n =>
      have hn : n ≠ 0 := hnz (some n) (List.mem_cons_self _ _) n rfl
      simp only [teardownCalls, hn, if_true, ne_eq, not_false_eq_true, List.countP_cons,
        Option.isSome, List.length_cons]
      simpa using ih (i + 1) ht

/-- Counting `some` slots in the registration array counts the successful
registrations. -/
theorem countP_registeredHandles (conns : List (Except String Nat)) :
    (registeredHandles conns).countP Option.isSome = successCount conns := by
  induction conns with
  | nil => rfl
  | cons r t ih =>
    cases r <;> simp [registeredHandles, successCount, List.countP_cons] at * <;> omega

/-- Registration handles inherit the no-zero-id assumption from the
environment. -/
theorem registeredHandles_nonzero (conns : List (Except String Nat))
    (hnz : ∀ r ∈ conns, r ≠ .ok 0) :
    ∀ h ∈ registeredHandles conns, ∀ n, h = some n → n ≠ 0 := by
  intro h hh n hn hn0
  subst hn0
  rcases List.mem_map.mp hh with ⟨r, hr, hrh⟩
  cases r with
  | ok id =>
    simp only at hrh
    rw [← hrh] at hn
    have : id = 0 := Option.some.inj hn
    exact hnz _ hr (by rw [this])
  | error e => simp only at hrh; rw [← hrh] at hn; cases hn

/-- Clearing one slot preserves the no-zero-id property of the rest. -/
theorem set_none_nonzero (hs : List (Option Nat)) (i : Nat)
    (hnz : ∀ h ∈ hs, ∀ n, h = some n → n ≠ 0) :
    ∀ h ∈ hs.set i none, ∀ n, h = some n → n ≠ 0 := by
  intro h hh n hn
  rcases List.mem_or_eq_of_mem_set hh with hmem | hnone
  · exact hnz h hmem n hn
  · rw [hnone] at hn; cases hn

/-- Clearing an occupied slot drops the `some` count by exactly one. -/
theorem countP_set_none (hs : List (Option Nat)) (i : Nat) (v : Nat)
    (h : hs[i]? = some (some v)) :
    (hs.set i none).countP Option.isSome + 1 = hs.countP Option.isSome := by
  induction hs generalizing i with
  | nil => simp at h
  | cons x t ih =>
    cases i with
    | zero =>
      simp only [List.getElem?_cons_zero, Option.some.injEq] at h
      subst h
      simp [List.set, List.countP_cons, Option.isSome]
    | succ j =>
      simp only [List.getElem?_cons_succ] at h
      have := ih j h
      simp only [List.set, List.countP_cons]
      omega

/-- When no registration threw, every connection registered successfully. -/
theorem firstThrow_eq_none_all_ok (conns : List (Except String Nat))
    (h : firstThrow conns = none) :
    ∀ r ∈ conns, ∃ id, r = .ok id := by
  induction conns with
  | nil => intro r hr; cases hr
  | cons x t ih =>
    intro r hr
    cases x with
    | error e => simp [firstThrow] at h
    | ok id =>
      rcases List.mem_cons.mp hr with hr | hr
      · exact ⟨id, hr⟩
      · exact ih (by simpa [firstThrow] using h) r hr

/-- The winning event addresses one of the registered connections. -/
theorem firstEvent_lt (n : Nat) (es : List (Nat × ConfResult)) (i : Nat) (p : ConfResult)
    (h : firstEvent n es = some (i, p)) : i < n := by
  induction es with
  | nil => simp [firstEvent] at h
  | cons e t ih =>
    by_cases he : e.1 < n
    · simp only [firstEvent, he, if_true, Option.some.injEq] at h
      subst h; exact he
    · simp only [firstEvent, he, if_false] at h
      exact ih h

/-- A race already decided by its prefix of events ignores every later
event. -/
theorem firstEvent_append (n : Nat) (es later : List (Nat × ConfResult))
    (e : Nat × ConfResult) (h : firstEvent n es = some e) :
    firstEvent n (es ++ later) = some e := by
  induction es with
  | nil => simp [firstEvent] at h
  | cons x t ih =>
    by_cases hx : x.1 < n
    · simp only [firstEvent, hx, if_true] at h ⊢
      exact h
    · simp only [firstEvent, hx, if_false, List.cons_append] at h ⊢
      exact ih h

/-- Normal form of a call whose race is settled by a rejected registration
promise. -/
theorem confirmTransaction_throw_eq (sig : String) (env : ConfirmEnv) (st : SenderState)
    (bytes : List Nat) (e : String)
    (hsig : bs58Decode sig = some bytes) (hlen : bytes.length = 64)
    (hthrow : firstThrow env.conns = some e) :
    confirmTransaction sig env st =
      (.error (.subscriptionError e),
        ⟨registeredHandles env.conns, teardownCalls 0 (registeredHandles env.conns)⟩, st) := by
  unfold confirmTransaction
  rw [hsig]
  simp [hlen, hthrow]

/-- Normal form of a call won by the callback of endpoint `i`. -/
theorem confirmTransaction_event_eq (sig : String) (env : ConfirmEnv) (st : SenderState)
    (bytes : List Nat) (i : Nat) (p : ConfResult)
    (hsig : bs58Decode sig = some bytes) (hlen : bytes.length = 64)
    (hthrow : firstThrow env.conns = none)
    (hev : firstEvent env.conns.length env.events = some (i, p)) :
    confirmTransaction sig env st =
      (.ok p,
        ⟨registeredHandles env.conns,
          teardownCalls 0 ((registeredHandles env.conns).set i none)⟩, st) := by
  unfold confirmTransaction
  rw [hsig]
  simp [hlen, hthrow, hev]

/-- Normal form of a call in which nothing fires before the deadline. -/
theorem confirmTransaction_timeout_eq (sig : String) (env : ConfirmEnv) (st : SenderState)
    (bytes : List Nat)
    (hsig : bs58Decode sig = some bytes) (hlen : bytes.length = 64)
    (hthrow : firstThrow env.conns = none)
    (hev : firstEvent env.conns.length env.events = none) :
    confirmTransaction sig env st =
      (.error (.timeout env.elapsedMs sig),
        ⟨registeredHandles env.conns, teardownCalls 0 (registeredHandles env.conns)⟩,
        ⟨st.timeoutCount + 1, st.additionalConnections⟩) := by
  unfold confirmTransaction
  rw [hsig]
  simp [hlen, hthrow, hev]

/-- Normal form of a call whose base58 decoding throws. -/
theorem confirmTransaction_decodeFail_eq (sig : String) (env : ConfirmEnv) (st : SenderState)
    (hsig : bs58Decode sig = none) :
    confirmTransaction sig env st = (.error (.invalidBase58 sig), ⟨[], []⟩, st) := by
  unfold confirmTransaction
  rw [hsig]

/-- Normal form of a call whose signature decodes to the wrong length. -/
theorem confirmTransaction_badLength_eq (sig : String) (env : ConfirmEnv) (st : SenderState)
    (bytes : List Nat) (hsig : bs58Decode sig = some bytes) (hlen : bytes.length ≠ 64) :
    confirmTransaction sig env st = (.error .invalidLength, ⟨[], []⟩, st) := by
  unfold confirmTransaction
  rw [hsig]
  simp [hlen]

/-! ### Claim theorems -/

/-- C4: for every input string whose base58 decoding fails or does not yield
exactly 64 bytes, `confirmTransaction` fails immediately with an
invalid-signature error, registers nothing (no `onSignature` call, so zero
subscriptions are opened), tears nothing down, and leaves the sender state
unchanged. -/
theorem confirm_invalid_signature (sig : String) (env : ConfirmEnv) (st : SenderState)
    (h : bs58Decode sig = none ∨ (bs58Decode sig).map List.length ≠ some 64) :
    (∃ e, confirmResult sig env st = .error e ∧ e.isInvalidSignature = true) ∧
      (confirmTrace sig env st).registered = [] ∧
      (confirmTrace sig env st).teardowns = [] ∧
      confirmState sig env st = st := by
  unfold confirmResult confirmTrace confirmState
  cases hd : bs58Decode sig with
  | none =>
    rw [confirmTransaction_decodeFail_eq sig env st hd]
    exact ⟨⟨.invalidBase58 sig, rfl, rfl⟩, rfl, rfl, rfl⟩
  | some bytes =>
    have hlen : bytes.length ≠ 64 := by
      rcases h with h | h
      · rw [hd] at h; cases h
      · rw [hd] at h; simpa using h
    rw [confirmTransaction_badLength_eq sig env st bytes hd hlen]
    exact ⟨⟨.invalidLength, rfl, rfl⟩, rfl, rfl, rfl⟩

/-- Witness for C4 at the concrete input `"0"`, whose base58 decoding
throws (the character `'0'` is not in the alphabet). -/
theorem confirm_invalid_signature_witness :
    (bs58Decode "0" = none ∨ (bs58Decode "0").map List.length ≠ some 64) ∧
      ((∃ e, confirmResult "0" ⟨[.ok 1], [], 5⟩ ⟨0, []⟩ = .error e ∧
          e.isInvalidSignature = true) ∧
        (confirmTrace "0" ⟨[.ok 1], [], 5⟩ ⟨0, []⟩).registered = [] ∧
        (confirmTrace "0" ⟨[.ok 1], [], 5⟩ ⟨0, []⟩).teardowns = [] ∧
        confirmState "0" ⟨[.ok 1], [], 5⟩ ⟨0, []⟩ = ⟨0, []⟩) :=
  ⟨Or.inl (by decide),
    confirm_invalid_signature "0" ⟨[.ok 1], [], 5⟩ ⟨0, []⟩ (Or.inl (by decide))⟩

/-- C6: if the `getLatestBlockhash` fetch inside `prepareTx` rejects, the
call fails with that propagated network failure and no signing occurs: no
additional signer's `partialSign` runs and the wallet's `signTransaction`
is not invoked. -/
theorem prepareTx_blockhash_failure (env : PrepareEnv) (tx : Tx)
    (additionalSigners : List (Option String)) (e : String)
    (h : env.blockhashResult = .error e) :
    (prepareTx env tx additionalSigners).1 = .error e ∧
      (prepareTx env tx additionalSigners).2.partialSignCalls = [] ∧
      (prepareTx env tx additionalSigners).2.walletSignInvoked = false := by
  unfold prepareTx
  rw [h]
  exact ⟨rfl, rfl, rfl⟩

/-- Witness for C6 at a concrete environment whose blockhash fetch fails. -/
theorem prepareTx_blockhash_failure_witness :
    (PrepareEnv.blockhashResult ⟨"payer", .error "network down", id⟩ =
        .error "network down") ∧
      ((prepareTx ⟨"payer", .error "network down", id⟩ ⟨none, none, []⟩
            [some "kp1", none]).1 = .error "network down" ∧
        (prepareTx ⟨"payer", .error "network down", id⟩ ⟨none, none, []⟩
            [some "kp1", none]).2.partialSignCalls = [] ∧
        (prepareTx ⟨"payer", .error "network down", id⟩ ⟨none, none, []⟩
            [some "kp1", none]).2.walletSignInvoked = false) :=
  ⟨rfl, prepareTx_blockhash_failure ⟨"payer", .error "network down", id⟩
    ⟨none, none, []⟩ [some "kp1", none] "network down" rfl⟩

/-- Helper: the `.catch` log accumulator keeps one entry per rejected
dispatch. -/
theorem dispatch_foldr_length (rs : List (Except String String)) (acc : List String) :
    (rs.foldr (fun r logs => match r with | .ok _ => logs | .error e => e :: logs) acc).length
      = rs.countP (fun r => match r with | .error _ => true | .ok _ => false) + acc.length := by
  induction rs with
  | nil => simp
  | cons r t ih =>
    cases r <;> simp [List.countP_cons, ih]
    omega

/-- C7: `sendToAdditionalConnections` never propagates a dispatch failure:
for every combination of per-connection outcomes it returns normally (never
an error), logging exactly the failed dispatches, and as an operation on the
sender it leaves the sender state — and hence any concurrently observed
primary-send outcome — untouched. -/
theorem sendToAdditionalConnections_absorbs (dispatchResults : List (Except String String)) :
    (∀ e, sendToAdditionalConnections dispatchResults ≠ .error e) ∧
      (∃ logs, sendToAdditionalConnections dispatchResults = .ok logs ∧
        logs.length = dispatchResults.countP
          (fun r => match r with | .error _ => true | .ok _ => false)) ∧
      (∀ st : SenderState, stepOp st .sendToAdditionalOp = st) := by
  refine ⟨?_, ⟨⟨_, rfl, ?_⟩, fun _ => rfl⟩⟩
  · intro e h
    simp [sendToAdditionalConnections] at h
  · simpa using dispatch_foldr_length dispatchResults []

/-- C8: `addAdditionalConnection` is idempotent with respect to the rpc
endpoint address: a connection whose address is already registered is a
silent no-op, and two calls with the same address register the endpoint
exactly once. -/
theorem addAdditionalConnection_idempotent (l : List ConnectionRef)
    (c c' : ConnectionRef) (h : c'.rpcEndpoint = c.rpcEndpoint) :
    addAdditionalConnection (addAdditionalConnection l c) c' =
        addAdditionalConnection l c ∧
      (∀ d ∈ l, d.rpcEndpoint = c.rpcEndpoint → addAdditionalConnection l c = l) := by
  constructor
  · by_cases hl : (l.filter fun x => x.rpcEndpoint == c.rpcEndpoint).length > 0
    · have h1 : addAdditionalConnection l c = l := by
        unfold addAdditionalConnection
        simp only [hl, if_true]
      rw [h1]
      unfold addAdditionalConnection
      have : (l.filter fun x => x.rpcEndpoint == c'.rpcEndpoint).length > 0 := by
        rw [h]; exact hl
      simp only [this, if_true]
    · have h1 : addAdditionalConnection l c = l ++ [c] := by
        unfold addAdditionalConnection
        simp only [hl, if_false]
      rw [h1]
      unfold addAdditionalConnection
      have hc : ((l ++ [c]).filter fun x => x.rpcEndpoint == c'.rpcEndpoint).length > 0 := by
        rw [List.filter_append]
        have : ([c].filter fun x => x.rpcEndpoint == c'.rpcEndpoint) = [c] := by
          simp [h]
        rw [this]
        simp
      simp only [hc, if_true]
  · intro d hd hdc
    unfold addAdditionalConnection
    have : d ∈ l.filter fun x => x.rpcEndpoint == c.rpcEndpoint :=
      List.mem_filter.mpr ⟨hd, by simp [hdc]⟩
    have hpos : (l.filter fun x => x.rpcEndpoint == c.rpcEndpoint).length > 0 :=
      List.length_pos.mpr (fun hnil => by rw [hnil] at this; cases this)
    simp only [hpos, if_true]

/-- Witness for C8: adding the same endpoint address twice to a one-element
list registers it exactly once, and adding an address already present is a
no-op. -/
theorem addAdditionalConnection_idempotent_witness :
    ConnectionRef.rpcEndpoint ⟨"https://rpc.example"⟩ =
        ConnectionRef.rpcEndpoint ⟨"https://rpc.example"⟩ ∧
      (addAdditionalConnection
            (addAdditionalConnection [⟨"https://other.example"⟩] ⟨"https://rpc.example"⟩)
            ⟨"https://rpc.example"⟩ =
          addAdditionalConnection [⟨"https://other.example"⟩] ⟨"https://rpc.example"⟩ ∧
        (∀ d ∈ [(⟨"https://other.example"⟩ : ConnectionRef)],
          d.rpcEndpoint = ConnectionRef.rpcEndpoint ⟨"https://rpc.example"⟩ →
            addAdditionalConnection [⟨"https://other.example"⟩] ⟨"https://rpc.example"⟩ =
              [⟨"https://other.example"⟩])) :=
  ⟨rfl, addAdditionalConnection_idempotent [⟨"https://other.example"⟩]
    ⟨"https://rpc.example"⟩ ⟨"https://rpc.example"⟩ rfl⟩

/-- C10: with `preSigned` set to true, `send` and `sendVersionedTransaction`
submit the serialized transaction exactly as given: no blockhash is fetched,
the transaction (fee payer included) is untouched, no `partialSign` or
`sign` runs, and the wallet's `signTransaction` is not invoked. -/
theorem preSigned_sends_as_given (env : PrepareEnv) (venv : VersionedEnv)
    (serialize : Tx → List Nat) (vserialize : VersionedTx → List Nat)
    (sendRaw : List Nat → Except String (String × Nat))
    (tx : Tx) (vtx : VersionedTx)
    (additionalSigners vsigners : List (Option String)) :
    send env serialize sendRaw tx additionalSigners true =
        (sendRaw (serialize tx), ⟨⟨0, [], false⟩, some (serialize tx)⟩) ∧
      sendVersionedTransaction venv vserialize sendRaw vtx vsigners true =
        (sendRaw (vserialize vtx), ⟨[], false, vserialize vtx⟩) :=
  ⟨rfl, rfl⟩

/-- C3: when every registration succeeded and endpoint `i` is the first to
fire, the call returns exactly that endpoint's payload — regardless of `i`'s
position in registration order — the sender state is untouched, and every
callback event after the first is a no-op: appending any later events
changes nothing observable about the call. -/
theorem confirm_first_writer_wins (sig : String) (env : ConfirmEnv) (st : SenderState)
    (bytes : List Nat) (i : Nat) (p : ConfResult)
    (hsig : bs58Decode sig = some bytes) (hlen : bytes.length = 64)
    (hthrow : firstThrow env.conns = none)
    (hev : firstEvent env.conns.length env.events = some (i, p)) :
    confirmResult sig env st = .ok p ∧ confirmState sig env st = st ∧
      ∀ laterEvents,
        confirmTransaction sig ⟨env.conns, env.events ++ laterEvents, env.elapsedMs⟩ st =
          confirmTransaction sig env st := by
  have h1 := confirmTransaction_event_eq sig env st bytes i p hsig hlen hthrow hev
  refine ⟨?_, ?_, ?_⟩
  · unfold confirmResult; rw [h1]
  · unfold confirmState; rw [h1]
  · intro laterEvents
    have h2 := confirmTransaction_event_eq sig
      ⟨env.conns, env.events ++ laterEvents, env.elapsedMs⟩ st bytes i p hsig hlen hthrow
      (firstEvent_append env.conns.length env.events laterEvents (i, p) hev)
    rw [h1, h2]

/-- Environment of the C3 witness: two reachable endpoints; the second one's
callback fires first with slot 42. -/
def c3Env : ConfirmEnv := ⟨[.ok 1, .ok 2], [(1, ⟨42, .success⟩), (0, ⟨7, .success⟩)], 10⟩

/-- Witness for C3: the race returns the second endpoint's payload
`{slot 42, success}` and the first endpoint's later callback changes
nothing. -/
theorem confirm_first_writer_wins_witness :
    (bs58Decode sig64 = some (List.replicate 64 0) ∧
      (List.replicate 64 0).length = 64 ∧
      firstThrow c3Env.conns = none ∧
      firstEvent c3Env.conns.length c3Env.events = some (1, ⟨42, .success⟩)) ∧
      (confirmResult sig64 c3Env ⟨0, []⟩ = .ok ⟨42, .success⟩ ∧
        confirmState sig64 c3Env ⟨0, []⟩ = ⟨0, []⟩ ∧
        ∀ laterEvents,
          confirmTransaction sig64 ⟨c3Env.conns, c3Env.events ++ laterEvents, c3Env.elapsedMs⟩
              ⟨0, []⟩ =
            confirmTransaction sig64 c3Env ⟨0, []⟩) :=
  ⟨⟨by decide, by decide, rfl, rfl⟩,
    confirm_first_writer_wins sig64 c3Env ⟨0, []⟩ (List.replicate 64 0) 1 ⟨42, .success⟩
      (by decide) (by decide) rfl rfl⟩

/-- Timeout normal form of the state: a timed-out call bumps the counter by
one and touches nothing else. -/
theorem confirmState_timeout (sig : String) (env : ConfirmEnv) (st : SenderState)
    (bytes : List Nat)
    (hsig : bs58Decode sig = some bytes) (hlen : bytes.length = 64)
    (hthrow : firstThrow env.conns = none)
    (hev : firstEvent env.conns.length env.events = none) :
    confirmState sig env st = ⟨st.timeoutCount + 1, st.additionalConnections⟩ := by
  unfold confirmState
  rw [confirmTransaction_timeout_eq sig env st bytes hsig hlen hthrow hev]

/-- Repeating a timed-out call N times adds exactly N to the counter. -/
theorem repeatConfirm_timeout (sig : String) (env : ConfirmEnv) (bytes : List Nat)
    (hsig : bs58Decode sig = some bytes) (hlen : bytes.length = 64)
    (hthrow : firstThrow env.conns = none)
    (hev : firstEvent env.conns.length env.events = none) :
    ∀ N st, (repeatConfirm sig env N st).timeoutCount = st.timeoutCount + N := by
  intro N
  induction N with
  | zero => intro st; rfl
  | succ n ih =>
    intro st
    have hst := confirmState_timeout sig env st bytes hsig hlen hthrow hev
    show (repeatConfirm sig env n (confirmState sig env st)).timeoutCount = _
    rw [hst, ih ⟨st.timeoutCount + 1, st.additionalConnections⟩]
    show st.timeoutCount + 1 + n = st.timeoutCount + (n + 1)
    omega

/-- C5: a `confirmTransaction` call in which no endpoint's callback fires
before the deadline fails with the timeout error carrying the elapsed
duration and the signature, and bumps the sender's timeout counter by
exactly 1; N such calls in a row add exactly N, and a call won by a
callback leaves the counter unchanged. -/
theorem confirm_timeout_counter (sig : String) (env : ConfirmEnv) (st : SenderState)
    (bytes : List Nat)
    (hsig : bs58Decode sig = some bytes) (hlen : bytes.length = 64)
    (hthrow : firstThrow env.conns = none)
    (hev : firstEvent env.conns.length env.events = none) :
    confirmResult sig env st = .error (.timeout env.elapsedMs sig) ∧
      (confirmState sig env st).timeoutCount = st.timeoutCount + 1 ∧
      (∀ N, (repeatConfirm sig env N st).timeoutCount = st.timeoutCount + N) ∧
      ∀ (env2 : ConfirmEnv) (i : Nat) (p : ConfResult),
        firstThrow env2.conns = none →
        firstEvent env2.conns.length env2.events = some (i, p) →
        confirmState sig env2 st = st := by
  refine ⟨?_, ?_, fun N => repeatConfirm_timeout sig env bytes hsig hlen hthrow hev N st,
    ?_⟩
  · unfold confirmResult
    rw [confirmTransaction_timeout_eq sig env st bytes hsig hlen hthrow hev]
  · rw [confirmState_timeout sig env st bytes hsig hlen hthrow hev]
  · intro env2 i p hthrow2 hev2
    unfold confirmState
    rw [confirmTransaction_event_eq sig env2 st bytes i p hsig hlen hthrow2 hev2]

/-- Environment of the C5 witness: one reachable endpoint whose callback
never fires. -/
def c5Env : ConfirmEnv := ⟨[.ok 1], [], 100⟩

/-- Witness for C5 at a one-endpoint environment that times out after
100 ms. -/
theorem confirm_timeout_counter_witness :
    (bs58Decode sig64 = some (List.replicate 64 0) ∧
      (List.replicate 64 0).length = 64 ∧
      firstThrow c5Env.conns = none ∧
      firstEvent c5Env.conns.length c5Env.events = none) ∧
      (confirmResult sig64 c5Env ⟨0, []⟩ = .error (.timeout c5Env.elapsedMs sig64) ∧
        (confirmState sig64 c5Env ⟨0, []⟩).timeoutCount = 0 + 1 ∧
        (∀ N, (repeatConfirm sig64 c5Env N ⟨0, []⟩).timeoutCount = 0 + N) ∧
        ∀ (env2 : ConfirmEnv) (i : Nat) (p : ConfResult),
          firstThrow env2.conns = none →
          firstEvent env2.conns.length env2.events = some (i, p) →
          confirmState sig64 env2 ⟨0, []⟩ = ⟨0, []⟩) :=
  ⟨⟨by decide, by decide, rfl, rfl⟩,
    confirm_timeout_counter sig64 c5Env ⟨0, []⟩ (List.replicate 64 0)
      (by decide) (by decide) rfl rfl⟩

/-- Whether a call outcome is the timeout error. -/
def timedOut : Except TxError ConfResult → Bool
  | .error (.timeout _ _) => true
  | _ => false

/-- Exact counter bookkeeping of one `confirmTransaction` call: the counter
grows by 1 when — and only when — the call timed out. -/
theorem confirmState_timeoutCount_exact (sig : String) (env : ConfirmEnv) (st : SenderState) :
    (confirmState sig env st).timeoutCount =
      st.timeoutCount + (timedOut (confirmResult sig env st)).toNat := by
  unfold confirmResult confirmState
  cases hd : bs58Decode sig with
  | none =>
    rw [confirmTransaction_decodeFail_eq sig env st hd]
    rfl
  | some bytes =>
    by_cases hlen : bytes.length = 64
    · cases hthrow : firstThrow env.conns with
      | some e =>
        rw [confirmTransaction_throw_eq sig env st bytes e hd hlen hthrow]
        rfl
      | none =>
        cases hev : firstEvent env.conns.length env.events with
        | some ip =>
          obtain ⟨i, p⟩ := ip
          rw [confirmTransaction_event_eq sig env st bytes i p hd hlen hthrow hev]
          rfl
        | none =>
          rw [confirmTransaction_timeout_eq sig env st bytes hd hlen hthrow hev]
          rfl
    · rw [confirmTransaction_badLength_eq sig env st bytes hd hlen]
      rfl

/-- Any single operation leaves the counter unchanged or adds exactly 1. -/
theorem stepOp_timeoutCount (st : SenderState) (op : SenderOp) :
    (stepOp st op).timeoutCount = st.timeoutCount ∨
      (stepOp st op).timeoutCount = st.timeoutCount + 1 := by
  cases op with
  | confirmOp sig env =>
    have h := confirmState_timeoutCount_exact sig env st
    show (confirmState sig env st).timeoutCount = st.timeoutCount ∨
      (confirmState sig env st).timeoutCount = st.timeoutCount + 1
    rw [h]
    cases htd : timedOut (confirmResult sig env st) with
    | false => exact Or.inl rfl
    | true => exact Or.inr rfl
  | addConnOp c => exact Or.inl rfl
  | sendOp => exact Or.inl rfl
  | sendToAdditionalOp => exact Or.inl rfl
  | getTimeoutCountOp => exact Or.inl rfl

/-- No operation sequence ever decreases the counter. -/
theorem runOps_timeoutCount_mono (st : SenderState) (ops : List SenderOp) :
    st.timeoutCount ≤ (runOps st ops).timeoutCount := by
  induction ops generalizing st with
  | nil => exact Nat.le_refl _
  | cons op ops ih =>
    have h := stepOp_timeoutCount st op
    have h2 := ih (stepOp st op)
    show st.timeoutCount ≤ (runOps (stepOp st op) ops).timeoutCount
    rcases h with h | h <;> omega

/-- C9: over the life of a sender, `getTimeoutCount` is monotonically
non-decreasing: no sequence of operations ever decreases or resets the
counter, a `confirmTransaction` call adds 1 exactly when it times out and 0
otherwise, and every other operation leaves the counter unchanged. -/
theorem timeoutCount_monotone (st : SenderState) (ops : List SenderOp)
    (sig : String) (env : ConfirmEnv) (c : ConnectionRef) :
    getTimeoutCount st ≤ getTimeoutCount (runOps st ops) ∧
      getTimeoutCount (stepOp st (.confirmOp sig env)) =
        getTimeoutCount st + (timedOut (confirmResult sig env st)).toNat ∧
      getTimeoutCount (stepOp st (.addConnOp c)) = getTimeoutCount st ∧
      getTimeoutCount (stepOp st .sendOp) = getTimeoutCount st ∧
      getTimeoutCount (stepOp st .sendToAdditionalOp) = getTimeoutCount st ∧
      getTimeoutCount (stepOp st .getTimeoutCountOp) = getTimeoutCount st :=
  ⟨runOps_timeoutCount_mono st ops, confirmState_timeoutCount_exact sig env st,
    rfl, rfl, rfl, rfl⟩

/-- Helper: every occupied nonzero slot is torn down — the pair (connection
index, id) appears among the issued `removeSignatureListener` calls. -/
theorem teardownCalls_mem (hs : List (Option Nat)) : ∀ (i j v : Nat),
    hs[j]? = some (some v) → v ≠ 0 → (i + j, v) ∈ teardownCalls i hs := by
  induction hs with
  | nil => intro i j v h _; simp at h
  | cons x t ih =>
    intro i j v h hv
    cases j with
    | zero =>
      simp only [List.getElem?_cons_zero, Option.some.injEq] at h
      subst h
      simp [teardownCalls, hv]
    | succ k =>
      simp only [List.getElem?_cons_succ] at h
      have hmem := ih (i + 1) k v h hv
      have heq : i + (k + 1) = (i + 1) + k := by omega
      rw [heq]
      cases x with
      | none => exact hmem
      | some n =>
        by_cases hn : n = 0
        · simp only [teardownCalls, hn, ne_eq, not_true_eq_false, if_false]
          exact hmem
        · simp only [teardownCalls, hn, ne_eq, not_false_eq_true, if_true]
          exact List.mem_cons_of_mem _ hmem

/-- Environment of the C1 counterexample: two endpoints, both register
successfully (ids 1 and 2), and the first endpoint's callback fires. -/
def c1Env : ConfirmEnv := ⟨[.ok 1, .ok 2], [(0, ⟨5, .success⟩)], 100⟩

/-- C1 counterexample: on the success outcome path the number of teardowns
does not equal the number of subscriptions registered on reachable
endpoints. Both endpoints register (ids 1 and 2), endpoint 0 wins the race,
its callback clears its own `subscriptionIds` slot (line 185), and the
`finally` loop therefore issues exactly one `removeSignatureListener`
call — for handle 2 — not two. -/
theorem confirm_teardown_counterexample :
    confirmResult sig64 c1Env ⟨0, []⟩ = .ok ⟨5, .success⟩ ∧
      successCount c1Env.conns = 2 ∧
      (confirmTrace sig64 c1Env ⟨0, []⟩).registered = [some 1, some 2] ∧
      (confirmTrace sig64 c1Env ⟨0, []⟩).teardowns = [(1, 2)] ∧
      (confirmTrace sig64 c1Env ⟨0, []⟩).teardowns.length ≠ successCount c1Env.conns := by
  decide

/-- C1 (amended): for every valid 64-byte signature, provided every
successful registration returns a nonzero subscription id (the `finally`
loop's truthiness test skips an id of 0), the call tears down exactly the
successful registrations before returning: all of them when the call ends
in an error (registration failure or timeout), and all but the winner's —
whose handle was cleared by its own callback, standing in for the
endpoint's automatic removal of a fired one-shot subscription — when a
callback won the race. -/
theorem confirm_teardown_amended (sig : String) (env : ConfirmEnv) (st : SenderState)
    (bytes : List Nat)
    (hsig : bs58Decode sig = some bytes) (hlen : bytes.length = 64)
    (hnz : ∀ r ∈ env.conns, r ≠ .ok 0) :
    (isOkResult (confirmResult sig env st) = false →
      (confirmTrace sig env st).teardowns.length = successCount env.conns) ∧
    (isOkResult (confirmResult sig env st) = true →
      (confirmTrace sig env st).teardowns.length + 1 = successCount env.conns) := by
  unfold confirmResult confirmTrace
  cases hthrow : firstThrow env.conns with
  | some e =>
    rw [confirmTransaction_throw_eq sig env st bytes e hsig hlen hthrow]
    constructor
    · intro _
      show (teardownCalls 0 (registeredHandles env.conns)).length = successCount env.conns
      rw [teardownCalls_length (registeredHandles env.conns) 0
        (registeredHandles_nonzero env.conns hnz)]
      exact countP_registeredHandles env.conns
    · intro h
      exact Bool.noConfusion h
  | none =>
    cases hev : firstEvent env.conns.length env.events with
    | none =>
      rw [confirmTransaction_timeout_eq sig env st bytes hsig hlen hthrow hev]
      constructor
      · intro _
        show (teardownCalls 0 (registeredHandles env.conns)).length = successCount env.conns
        rw [teardownCalls_length (registeredHandles env.conns) 0
          (registeredHandles_nonzero env.conns hnz)]
        exact countP_registeredHandles env.conns
      · intro h
        exact Bool.noConfusion h
    | some ip =>
      obtain ⟨i, p⟩ := ip
      rw [confirmTransaction_event_eq sig env st bytes i p hsig hlen hthrow hev]
      refine ⟨fun h => Bool.noConfusion h, fun _ => ?_⟩
      show (teardownCalls 0 ((registeredHandles env.conns).set i none)).length + 1 =
        successCount env.conns
      have hlt : i < env.conns.length := firstEvent_lt env.conns.length env.events i p hev
      have hmem : env.conns.get ⟨i, hlt⟩ ∈ env.conns := List.get_mem env.conns i hlt
      obtain ⟨id, hid⟩ := firstThrow_eq_none_all_ok env.conns hthrow _ hmem
      have hreg : (registeredHandles env.conns)[i]? = some (some id) := by
        unfold registeredHandles
        rw [List.getElem?_map, List.getElem?_eq_getElem hlt]
        show some (match env.conns.get ⟨i, hlt⟩ with
          | .ok id => some id | .error _ => none) = some (some id)
        rw [hid]
      have h1 := teardownCalls_length ((registeredHandles env.conns).set i none) 0
        (set_none_nonzero (registeredHandles env.conns) i
          (registeredHandles_nonzero env.conns hnz))
      have h2 := countP_set_none (registeredHandles env.conns) i id hreg
      have h3 := countP_registeredHandles env.conns
      omega

/-- Environment of the C1 witness: one endpoint registers (id 3), one
registration throws, nothing fires — the error path of the amended
teardown property. -/
def c1WitnessEnv : ConfirmEnv := ⟨[.ok 3, .error "ws closed"], [], 9⟩

/-- Witness for the amended C1 at a concrete environment on the error
path: one successful registration, one teardown. -/
theorem confirm_teardown_amended_witness :
    (bs58Decode sig64 = some (List.replicate 64 0) ∧
      (List.replicate 64 0).length = 64 ∧
      (∀ r ∈ c1WitnessEnv.conns, r ≠ .ok 0)) ∧
      ((isOkResult (confirmResult sig64 c1WitnessEnv ⟨0, []⟩) = false →
        (confirmTrace sig64 c1WitnessEnv ⟨0, []⟩).teardowns.length =
          successCount c1WitnessEnv.conns) ∧
       (isOkResult (confirmResult sig64 c1WitnessEnv ⟨0, []⟩) = true →
        (confirmTrace sig64 c1WitnessEnv ⟨0, []⟩).teardowns.length + 1 =
          successCount c1WitnessEnv.conns)) :=
  ⟨⟨by decide, by decide, by decide⟩,
    confirm_teardown_amended sig64 c1WitnessEnv ⟨0, []⟩ (List.replicate 64 0)
      (by decide) (by decide) (by decide)⟩

/-- Environment of the C2 counterexample: endpoint 0 registers (id 1),
endpoint 1's registration throws `"boom"`, and endpoint 0's callback would
fire with slot 5. -/
def c2Env : ConfirmEnv := ⟨[.ok 1, .error "boom"], [(0, ⟨5, .success⟩)], 100⟩

/-- C2 counterexample: a single endpoint's registration throw does fail the
whole call. Endpoint 1's `onSignature` throws, so its promise is already
rejected when `Promise.race` runs and the race rejects with that error
before endpoint 0's callback (which would have delivered slot 5) can fire:
`confirmTransaction` neither returns a result nor times out — it rethrows
the registration error. -/
theorem confirm_registration_error_counterexample :
    confirmResult sig64 c2Env ⟨0, []⟩ = .error (.subscriptionError "boom") ∧
      isOkResult (confirmResult sig64 c2Env ⟨0, []⟩) = false ∧
      timedOut (confirmResult sig64 c2Env ⟨0, []⟩) = false ∧
      confirmState sig64 c2Env ⟨0, []⟩ = ⟨0, []⟩ := by
  decide

/-- C2 (amended): if registering on an endpoint throws, the error is
captured per-endpoint during the synchronous registration pass — the other
endpoints' registrations still take effect, are recorded, and every nonzero
one of them is torn down before control returns, and the timeout counter is
untouched — but the call then rejects with the first registering endpoint's
error instead of completing with a result or with Timeout, because the
rejected registration promise wins `Promise.race` before any callback can
fire. -/
theorem confirm_registration_error_amended (sig : String) (env : ConfirmEnv)
    (st : SenderState) (bytes : List Nat) (e : String)
    (hsig : bs58Decode sig = some bytes) (hlen : bytes.length = 64)
    (hthrow : firstThrow env.conns = some e) :
    confirmResult sig env st = .error (.subscriptionError e) ∧
      confirmState sig env st = st ∧
      (confirmTrace sig env st).registered = registeredHandles env.conns ∧
      ∀ j id, env.conns[j]? = some (.ok id) → id ≠ 0 →
        (j, id) ∈ (confirmTrace sig env st).teardowns := by
  have h := confirmTransaction_throw_eq sig env st bytes e hsig hlen hthrow
  unfold confirmResult confirmState confirmTrace
  rw [h]
  refine ⟨rfl, rfl, rfl, ?_⟩
  intro j id hj hid
  show (j, id) ∈ teardownCalls 0 (registeredHandles env.conns)
  have hreg : (registeredHandles env.conns)[j]? = some (some id) := by
    unfold registeredHandles
    rw [List.getElem?_map, hj]
    rfl
  simpa using teardownCalls_mem (registeredHandles env.conns) 0 j id hreg hid

/-- Environment of the C2 witness: the primary endpoint's registration
throws, the second endpoint registers with id 2. -/
def c2WitnessEnv : ConfirmEnv := ⟨[.error "refused", .ok 2], [], 0⟩

/-- Witness for the amended C2 at a concrete environment: the call rejects
with the first thrower's error and the surviving registration (endpoint 1,
id 2) is torn down. -/
theorem confirm_registration_error_amended_witness :
    (bs58Decode sig64 = some (List.replicate 64 0) ∧
      (List.replicate 64 0).length = 64 ∧
      firstThrow c2WitnessEnv.conns = some "refused") ∧
      (confirmResult sig64 c2WitnessEnv ⟨0, []⟩ = .error (.subscriptionError "refused") ∧
        confirmState sig64 c2WitnessEnv ⟨0, []⟩ = ⟨0, []⟩ ∧
        (confirmTrace sig64 c2WitnessEnv ⟨0, []⟩).registered =
          registeredHandles c2WitnessEnv.conns ∧
        ∀ j id, c2WitnessEnv.conns[j]? = some (.ok id) → id ≠ 0 →
          (j, id) ∈ (confirmTrace sig64 c2WitnessEnv ⟨0, []⟩).teardowns) :=
  ⟨⟨by decide, by decide, rfl⟩,
    confirm_registration_error_amended sig64 c2WitnessEnv ⟨0, []⟩ (List.replicate 64 0)
      "refused" (by decide) (by decide) rfl⟩
